import Mathlib

/-!
Verification development for the SeaFormer image-classification network
(`seaformer-cls/seaformer.py`).

The network is a data-flow graph of tensor operations.  We shallowly embed
the relevant parts over rational-valued tensors: a tensor is a shape
together with a total index function.  Framework primitives that the
repository merely calls (2-D convolution, inference-mode batch
normalization, linear/bilinear interpolation without corner alignment,
pooling, matrix multiplication) are given their standard reference
semantics over the rationals.  Two framework scalars are not rational and
are therefore kept as parameters of the model: the exponential used inside
softmax (field `expFn`) and the attention scale `key_dim ** -0.5`
(field `scale`); no claim below depends on their values.  Batch
normalization at inference with fixed running statistics is a channel-wise
affine map, so its learned/running parameters appear here directly as the
affine coefficients `bnw` (scale) and `bnb` (shift).
-/

namespace SeaF

/-- Rational-valued 4-D tensor with shape (B, C, H, W) and a total index
function.  Out-of-range indices are never relevant to the claims; data is
total for convenience. -/
structure T4 where
  B : ℕ
  C : ℕ
  H : ℕ
  W : ℕ
  data : ℕ → ℕ → ℕ → ℕ → ℚ

/-- Rational-valued 3-D tensor with shape (B, C, N). -/
structure T3 where
  B : ℕ
  C : ℕ
  N : ℕ
  data : ℕ → ℕ → ℕ → ℚ

/-- Rational-valued 2-D tensor with shape (B, N). -/
structure T2 where
  B : ℕ
  N : ℕ
  data : ℕ → ℕ → ℚ

/-- Broadcast index map: a size-1 dimension is indexed at 0 (PyTorch
broadcasting), otherwise the index is passed through. -/
def bIdx (d i : ℕ) : ℕ := if d = 1 then 0 else i

/-- Element-wise addition with PyTorch-style broadcasting of size-1 dims. -/
def T4.add (x y : T4) : T4 :=
  { B := max x.B y.B, C := max x.C y.C, H := max x.H y.H, W := max x.W y.W,
    data := fun b c h w =>
      x.data (bIdx x.B b) (bIdx x.C c) (bIdx x.H h) (bIdx x.W w) +
      y.data (bIdx y.B b) (bIdx y.C c) (bIdx y.H h) (bIdx y.W w) }

/-- Element-wise multiplication with broadcasting of size-1 dims. -/
def T4.mul (x y : T4) : T4 :=
  { B := max x.B y.B, C := max x.C y.C, H := max x.H y.H, W := max x.W y.W,
    data := fun b c h w =>
      x.data (bIdx x.B b) (bIdx x.C c) (bIdx x.H h) (bIdx x.W w) *
      y.data (bIdx y.B b) (bIdx y.C c) (bIdx y.H h) (bIdx y.W w) }

/-- Element-wise addition on 3-D tensors with broadcasting. -/
def T3.add (x y : T3) : T3 :=
  { B := max x.B y.B, C := max x.C y.C, N := max x.N y.N,
    data := fun b c n =>
      x.data (bIdx x.B b) (bIdx x.C c) (bIdx x.N n) +
      y.data (bIdx y.B b) (bIdx y.C c) (bIdx y.N n) }

/-- Apply a scalar function pointwise (activation layers). -/
def T4.map (x : T4) (f : ℚ → ℚ) : T4 :=
  { x with data := fun b c h w => f (x.data b c h w) }

/-- Multiply every entry by a scalar (`tensor * self.scale`). -/
def T4.smul (x : T4) (a : ℚ) : T4 :=
  { x with data := fun b c h w => x.data b c h w * a }

/-- torch.cat([q, k, v], dim=1): concatenation along the channel dim. -/
def T4.cat3 (x y z : T4) : T4 :=
  { B := x.B, C := x.C + y.C + z.C, H := x.H, W := x.W,
    data := fun b c h w =>
      if c < x.C then x.data b c h w
      else if c < x.C + y.C then y.data b (c - x.C) h w
      else z.data b (c - x.C - y.C) h w }

/-- tensor.permute(0, 1, 3, 2): swap the last two dimensions. -/
def T4.permute0132 (x : T4) : T4 :=
  { B := x.B, C := x.C, H := x.W, W := x.H,
    data := fun b c h w => x.data b c w h }

/-- tensor.mean(-1) on a (B, C, H, W) tensor: arithmetic mean over the
width axis, giving a (B, C, H) tensor. -/
def T4.meanW (x : T4) : T3 :=
  { B := x.B, C := x.C, N := x.H,
    data := fun b c h => (∑ j ∈ Finset.range x.W, x.data b c h j) / (x.W : ℚ) }

/-- tensor.mean(-2) on a (B, C, H, W) tensor: arithmetic mean over the
height axis, giving a (B, C, W) tensor. -/
def T4.meanH (x : T4) : T3 :=
  { B := x.B, C := x.C, N := x.W,
    data := fun b c w => (∑ i ∈ Finset.range x.H, x.data b c i w) / (x.H : ℚ) }

/-- tensor.reshape(B, C, H, W) of a 3-D tensor, in row-major order with
all four target sizes explicit (the `-1` of the source is resolved to the
quotient of the element counts at each call site). -/
def T3.reshapeTo4 (x : T3) (B C H W : ℕ) : T4 :=
  { B := B, C := C, H := H, W := W,
    data := fun b c h w =>
      let flat := ((b * C + c) * H + h) * W + w
      x.data (flat / (x.C * x.N)) ((flat / x.N) % x.C) (flat % x.N) }

/-- tensor.reshape(B, C, H, W) of a 4-D tensor, in row-major order. -/
def T4.reshape4 (x : T4) (B C H W : ℕ) : T4 :=
  { B := B, C := C, H := H, W := W,
    data := fun b c h w =>
      let flat := ((b * C + c) * H + h) * W + w
      x.data (flat / (x.C * x.H * x.W)) ((flat / (x.H * x.W)) % x.C)
        ((flat / x.W) % x.H) (flat % x.W) }

/-- torch.matmul of two 4-D tensors: batched matrix product over the
leading two dimensions (the shapes used in the source always agree on
those dimensions). -/
def T4.matmul (x y : T4) : T4 :=
  { B := x.B, C := x.C, H := x.H, W := y.W,
    data := fun b c h w =>
      ∑ k ∈ Finset.range x.W, x.data b c h k * y.data b c k w }

/-- nn.AdaptiveAvgPool2d((1,1)): global mean over the spatial dims. -/
def T4.adaptiveAvgPool1 (x : T4) : T4 :=
  { B := x.B, C := x.C, H := 1, W := 1,
    data := fun b c _ _ =>
      (∑ i ∈ Finset.range x.H, ∑ j ∈ Finset.range x.W, x.data b c i j) /
        ((x.H : ℚ) * (x.W : ℚ)) }

/-- self.avgpool(x).view(-1, x.shape[1]) in SeaFormer.forward: global
average pool then flatten to (B, C). -/
def T4.avgpoolView (x : T4) : T2 :=
  { B := x.B, N := x.C,
    data := fun b c =>
      (∑ i ∈ Finset.range x.H, ∑ j ∈ Finset.range x.W, x.data b c i j) /
        ((x.H : ℚ) * (x.W : ℚ)) }

/-- Zero-padded read of a spatial position given by signed indices
(reference semantics of convolution padding). -/
def T4.getPad (x : T4) (b c : ℕ) (i j : ℤ) : ℚ :=
  if 0 ≤ i ∧ i < (x.H : ℤ) ∧ 0 ≤ j ∧ j < (x.W : ℤ) then
    x.data b c i.toNat j.toNat
  else 0

/-- Output extent of a convolution along one spatial axis:
floor((n + 2*pad - dilation*(kernel-1) - 1) / stride) + 1. -/
def convOut (n k s p d : ℕ) : ℕ := (n + 2 * p - d * (k - 1) - 1) / s + 1

/-- Parameters of an nn.Conv2d with a square kernel: channel counts,
kernel geometry, grouping, weights and (optional) bias. -/
structure Conv2dParams where
  inCh : ℕ
  outCh : ℕ
  ks : ℕ
  stride : ℕ
  pad : ℕ
  dilation : ℕ
  groups : ℕ
  weight : ℕ → ℕ → ℕ → ℕ → ℚ
  bias : ℕ → ℚ
  hasBias : Bool

/-- Reference semantics of grouped 2-D convolution with zero padding:
output channel o draws from the `inCh / groups` input channels of its
group. -/
def conv2d (p : Conv2dParams) (x : T4) : T4 :=
  let cpg := p.inCh / p.groups
  let opg := p.outCh / p.groups
  { B := x.B, C := p.outCh,
    H := convOut x.H p.ks p.stride p.pad p.dilation,
    W := convOut x.W p.ks p.stride p.pad p.dilation,
    data := fun b o i j =>
      (if p.hasBias then p.bias o else 0) +
      ∑ c ∈ Finset.range cpg, ∑ ki ∈ Finset.range p.ks, ∑ kj ∈ Finset.range p.ks,
        p.weight o c ki kj *
          x.getPad b ((o / opg) * cpg + c)
            ((i * p.stride + ki * p.dilation : ℤ) - (p.pad : ℤ))
            ((j * p.stride + kj * p.dilation : ℤ) - (p.pad : ℤ)) }

/-- Inference-mode batch normalization: with fixed running statistics it is
a channel-wise affine map; `scale` and `shift` are its coefficients. -/
structure BNParams where
  scale : ℕ → ℚ
  shift : ℕ → ℚ

def batchNorm (p : BNParams) (x : T4) : T4 :=
  { x with data := fun b c i j => p.scale c * x.data b c i j + p.shift c }

/-- The activation kinds used by the source (`''`, relu, relu6 via
`nn.ReLU6`, hardswish, hard sigmoid). -/
inductive ActKind where
  | none
  | relu
  | relu6
  | hardswish
  | hsig
deriving DecidableEq

/-- relu6(t) = min(max(t, 0), 6). -/
def relu6Q (t : ℚ) : ℚ := min (max t 0) 6

/-- h_sigmoid / nn.Hardsigmoid: relu6(t + 3) / 6. -/
def hsigmoidQ (t : ℚ) : ℚ := relu6Q (t + 3) / 6

/-- nn.Hardswish: t * relu6(t + 3) / 6. -/
def hardswishQ (t : ℚ) : ℚ := t * relu6Q (t + 3) / 6

def ActKind.apply : ActKind → ℚ → ℚ
  | .none => fun t => t
  | .relu => fun t => max t 0
  | .relu6 => relu6Q
  | .hardswish => hardswishQ
  | .hsig => hsigmoidQ

/-- Learned parameters of one Conv2d_BN unit (or of one
nn.Sequential(Conv2d, BatchNorm2d) pair): convolution weight, convolution
bias, and the inference-time affine coefficients of the batch norm. -/
structure ConvWeights where
  w : ℕ → ℕ → ℕ → ℕ → ℚ
  b : ℕ → ℚ
  bnw : ℕ → ℚ
  bnb : ℕ → ℚ

/-- Conv2d_BN from the source: Conv2d (bias disabled) followed by a batch
norm, optionally followed by an activation. -/
structure Conv2dBN where
  conv : Conv2dParams
  bn : BNParams
  act : ActKind

def Conv2dBN.forward (m : Conv2dBN) (x : T4) : T4 :=
  (batchNorm m.bn (conv2d m.conv x)).map m.act.apply

/-- Build a Conv2d_BN(a, b, ks, stride, pad, dilation, groups, act) from
its learned weights, mirroring the constructor of the source. -/
def mkConv2dBN (a b ks stride pad dilation groups : ℕ) (wt : ConvWeights)
    (act : ActKind) : Conv2dBN :=
  { conv := { inCh := a, outCh := b, ks := ks, stride := stride, pad := pad,
              dilation := dilation, groups := groups, weight := wt.w,
              bias := wt.b, hasBias := false },
    bn := { scale := wt.bnw, shift := wt.bnb },
    act := act }

/-- nn.Sequential(nn.Conv2d(..., bias default True), nn.BatchNorm2d(...))
as used for `stride_conv` and `v_local` in the source. -/
def mkConvBNPair (a b ks stride pad dilation groups : ℕ) (wt : ConvWeights) :
    Conv2dBN :=
  { conv := { inCh := a, outCh := b, ks := ks, stride := stride, pad := pad,
              dilation := dilation, groups := groups, weight := wt.w,
              bias := wt.b, hasBias := true },
    bn := { scale := wt.bnw, shift := wt.bnb },
    act := .none }

/-- Plain nn.Conv2d(a, b, 1, 1, 0) with bias (the talking-head mixers and
the squeeze-excite 1x1 convolutions). -/
def mkConv1x1 (a b : ℕ) (w : ℕ → ℕ → ℕ → ℕ → ℚ) (bias : ℕ → ℚ) :
    Conv2dParams :=
  { inCh := a, outCh := b, ks := 1, stride := 1, pad := 0, dilation := 1,
    groups := 1, weight := w, bias := bias, hasBias := true }

/-- nn.Sequential(activation(), Conv2d_BN(...)) as used for `proj`,
`proj_encode_row` and `proj_encode_column` in the source: the activation
runs before the convolution. -/
structure ActConvBN where
  act : ActKind
  cbn : Conv2dBN

def ActConvBN.forward (m : ActConvBN) (x : T4) : T4 :=
  m.cbn.forward (x.map m.act.apply)

end SeaF

namespace SeaF

/-- Python int() truncation toward zero on a rational. -/
def pyTrunc (q : ℚ) : ℤ := if 0 ≤ q then ⌊q⌋ else -⌊-q⌋

/-- _make_divisible from the source: `new_v = max(min_value,
int(v + divisor / 2) // divisor * divisor)`, bumped by one divisor step
when `new_v < 0.9 * v`.  Integer floor division `//` is `Int` division
here (the divisor is positive). -/
def _make_divisible (v : ℚ) (divisor : ℕ := 8) (min_value : Option ℤ := Option.none) : ℤ :=
  let min_value := min_value.getD (divisor : ℤ)
  let new_v : ℤ := max min_value (pyTrunc (v + (divisor : ℚ) / 2) / (divisor : ℤ) * divisor)
  if (new_v : ℚ) < (9 / 10 : ℚ) * v then new_v + divisor else new_v

/-- Spec-side divisible-channel rounder, written from the words of the
claim: round v to the nearest multiple of 8 (ties upward), never below the
minimum (which defaults to the divisor 8), then bump up by one divisor
step whenever the rounded value falls below ninety percent of v. -/
def divisibleRounderSpec (v : ℚ) : ℤ :=
  let nearest : ℤ := 8 * ⌊v / 8 + 1 / 2⌋
  let clamped : ℤ := max 8 nearest
  if (clamped : ℚ) < (9 / 10 : ℚ) * v then clamped + 8 else clamped

end SeaF

namespace SeaF

/-- drop_path from the source (stochastic depth).  The framework's
per-sample uniform draw in [0, 1) is the explicit argument `rand`
(one value per batch element, broadcast over the remaining dims, exactly
like the shape `(B, 1, 1, 1)` random tensor of the source); `floor`
binarizes it as in the source. -/
def drop_path (x : T4) (drop_prob : ℚ) (training : Bool) (rand : ℕ → ℚ) : T4 :=
  if drop_prob = 0 ∨ training = false then x
  else
    let keep_prob := 1 - drop_prob
    { x with data := fun b c i j =>
        x.data b c i j / keep_prob * ((⌊keep_prob + rand b⌋ : ℤ) : ℚ) }

/-- nn.Dropout at inference (or with probability 0) is the identity; in
training it zeroes entries according to the explicit 0/1 `mask` and
rescales by 1/(1-p). -/
def dropoutQ (p : ℚ) (training : Bool) (mask : ℕ → ℕ → ℕ → ℕ → ℚ) (x : T4) : T4 :=
  if training = true ∧ p ≠ 0 then
    { x with data := fun b c i j => x.data b c i j * mask b c i j / (1 - p) }
  else x

/-- Mlp from the source: learned state.  `fc1` expands `in_features` to
`hidden_features` with a 1x1 Conv2d_BN, `dwconv` is a depthwise 3x3
convolution with bias, `fc2` projects back with a 1x1 Conv2d_BN. -/
structure Mlp where
  in_features : ℕ
  hidden_features : ℕ
  out_features : ℕ
  act : ActKind
  drop : ℚ
  fc1_w : ConvWeights
  dw_w : ℕ → ℕ → ℕ → ℕ → ℚ
  dw_b : ℕ → ℚ
  fc2_w : ConvWeights

def Mlp.fc1 (m : Mlp) : Conv2dBN :=
  mkConv2dBN m.in_features m.hidden_features 1 1 0 1 1 m.fc1_w .none

def Mlp.dwconv (m : Mlp) : Conv2dParams :=
  { inCh := m.hidden_features, outCh := m.hidden_features, ks := 3,
    stride := 1, pad := 1, dilation := 1, groups := m.hidden_features,
    weight := m.dw_w, bias := m.dw_b, hasBias := true }

def Mlp.fc2 (m : Mlp) : Conv2dBN :=
  mkConv2dBN m.hidden_features m.out_features 1 1 0 1 1 m.fc2_w .none

/-- Mlp.forward from the source: fc1, dwconv, act, drop, fc2, drop.  The
two dropout draws are the explicit mask arguments. -/
def Mlp.forward (m : Mlp) (training : Bool)
    (mask1 mask2 : ℕ → ℕ → ℕ → ℕ → ℚ) (x : T4) : T4 :=
  let x := m.fc1.forward x
  let x := conv2d m.dwconv x
  let x := x.map m.act.apply
  let x := dropoutQ m.drop training mask1 x
  let x := m.fc2.forward x
  let x := dropoutQ m.drop training mask2 x
  x

/-- InvertedResidual from the source (MV2-style block): learned state. -/
structure InvertedResidual where
  inp : ℕ
  oup : ℕ
  ks : ℕ
  stride : ℕ
  expandR : ℕ
  activations : ActKind
  pw_w : ConvWeights
  dw_w : ConvWeights
  pwl_w : ConvWeights

/-- hidden_dim = int(round(inp * expand_ratio)); the expand ratio is an
integer in this source, so the rounding is exact. -/
def InvertedResidual.hidden_dim (m : InvertedResidual) : ℕ := m.inp * m.expandR

/-- use_res_connect = self.stride == 1 and inp == oup. -/
def InvertedResidual.use_res_connect (m : InvertedResidual) : Prop :=
  m.stride = 1 ∧ m.inp = m.oup

instance (m : InvertedResidual) : Decidable m.use_res_connect := by
  unfold InvertedResidual.use_res_connect
  infer_instance

/-- self.conv of InvertedResidual: optional 1x1 expansion with activation,
depthwise k x k with stride and padding ks // 2, then 1x1 linear
projection, exactly as assembled in the source constructor. -/
def InvertedResidual.conv (m : InvertedResidual) (x : T4) : T4 :=
  let x := if m.expandR ≠ 1 then
      ((mkConv2dBN m.inp m.hidden_dim 1 1 0 1 1 m.pw_w .none).forward x).map
        m.activations.apply
    else x
  let x := ((mkConv2dBN m.hidden_dim m.hidden_dim m.ks m.stride (m.ks / 2) 1
      m.hidden_dim m.dw_w .none).forward x).map m.activations.apply
  (mkConv2dBN m.hidden_dim m.oup 1 1 0 1 1 m.pwl_w .none).forward x

/-- InvertedResidual.forward from the source: the shortcut add is taken
exactly when use_res_connect holds. -/
def InvertedResidual.forward (m : InvertedResidual) (x : T4) : T4 :=
  if m.use_res_connect then x.add (m.conv x) else m.conv x

/-- SEModule from the source: squeeze-excite gate.  The two 1x1
convolutions keep their default bias. -/
structure SEModule where
  channel : ℕ
  reduction : ℕ
  w1 : ℕ → ℕ → ℕ → ℕ → ℚ
  b1 : ℕ → ℚ
  w2 : ℕ → ℕ → ℕ → ℕ → ℚ
  b2 : ℕ → ℚ

def SEModule.conv1 (m : SEModule) : Conv2dParams :=
  mkConv1x1 m.channel (m.channel / m.reduction) m.w1 m.b1

def SEModule.conv2 (m : SEModule) : Conv2dParams :=
  mkConv1x1 (m.channel / m.reduction) m.channel m.w2 m.b2

/-- SEModule.forward from the source: global average pool, channel
reduction, relu, channel restore, hard sigmoid, multiply against the
pre-gate tensor. -/
def SEModule.forward (m : SEModule) (x : T4) : T4 :=
  let identity := x
  let x := x.adaptiveAvgPool1
  let x := conv2d m.conv1 x
  let x := x.map (ActKind.relu).apply
  let x := conv2d m.conv2 x
  let x := x.map hsigmoidQ
  identity.mul x

/-- ResidualUnit from the source (MV3-style block): learned state. -/
structure ResidualUnit where
  in_c : ℕ
  mid_c : ℕ
  out_c : ℕ
  filter_size : ℕ
  stride : ℕ
  use_se : Bool
  act : ActKind
  dilation : ℕ
  expand_w : ConvWeights
  bottleneck_w : ConvWeights
  linear_w : ConvWeights
  se : SEModule

/-- if_shortcut = stride == 1 and in_c == out_c. -/
def ResidualUnit.if_shortcut (m : ResidualUnit) : Prop :=
  m.stride = 1 ∧ m.in_c = m.out_c

instance (m : ResidualUnit) : Decidable m.if_shortcut := by
  unfold ResidualUnit.if_shortcut
  infer_instance

def ResidualUnit.expand_conv (m : ResidualUnit) : Conv2dBN :=
  mkConv2dBN m.in_c m.mid_c 1 1 0 1 1 m.expand_w m.act

def ResidualUnit.bottleneck_conv (m : ResidualUnit) : Conv2dBN :=
  mkConv2dBN m.mid_c m.mid_c m.filter_size m.stride
    (((m.filter_size - 1) / 2) * m.dilation) m.dilation m.mid_c
    m.bottleneck_w m.act

def ResidualUnit.linear_conv (m : ResidualUnit) : Conv2dBN :=
  mkConv2dBN m.mid_c m.out_c 1 1 0 1 1 m.linear_w .none

/-- The non-shortcut pipeline of ResidualUnit.forward: expand conv,
bottleneck conv, optional squeeze-excite, linear conv. -/
def ResidualUnit.body (m : ResidualUnit) (x : T4) : T4 :=
  let x := m.expand_conv.forward x
  let x := m.bottleneck_conv.forward x
  let x := if m.use_se then m.se.forward x else x
  m.linear_conv.forward x

/-- ResidualUnit.forward from the source: the transform, plus
torch.add(identity, x) exactly when if_shortcut holds. -/
def ResidualUnit.forward (m : ResidualUnit) (x : T4) : T4 :=
  let identity := x
  let x := m.body x
  if m.if_shortcut then identity.add x else x

end SeaF

namespace SeaF

/-- Source coordinate of F.interpolate with align_corners=False for
output index j, input length L, output length N: the cell-center
coordinate (j + 1/2) * (L / N) - 1/2, clamped below at 0. -/
def interpSrc (L N : ℕ) (j : ℕ) : ℚ :=
  max 0 (((j : ℚ) + 1 / 2) * ((L : ℚ) / (N : ℚ)) - 1 / 2)

/-- Reference semantics of 1-D linear interpolation without corner
alignment: resample a length-L signal e to length N and read output
index j.  The lower sample index is the floor of the source coordinate,
the upper sample is clamped at L - 1. -/
def interpLinear (L N : ℕ) (e : ℕ → ℚ) (j : ℕ) : ℚ :=
  let s := interpSrc L N j
  let i0 : ℕ := (⌊s⌋).toNat
  let lam : ℚ := s - (i0 : ℚ)
  let i1 : ℕ := if i0 < L - 1 then i0 + 1 else i0
  (1 - lam) * e i0 + lam * e i1

/-- SqueezeAxialPositionalEmbedding from the source: a learned tensor of
shape (1, dim, shape); the batch index of the stored parameter is
always 0. -/
structure SqueezeAxialPositionalEmbedding where
  dim : ℕ
  shape : ℕ
  pos_embed : ℕ → ℕ → ℚ

/-- The stored embedding resampled to length N by F.interpolate with
mode='linear', align_corners=False, as a (1, dim, N) tensor. -/
def SqueezeAxialPositionalEmbedding.interpTo
    (m : SqueezeAxialPositionalEmbedding) (N : ℕ) : T3 :=
  { B := 1, C := m.dim, N := N,
    data := fun _ c n => interpLinear m.shape N (fun i => m.pos_embed c i) n }

/-- SqueezeAxialPositionalEmbedding.forward from the source:
x + F.interpolate(self.pos_embed, size=N, mode='linear',
align_corners=False). -/
def SqueezeAxialPositionalEmbedding.forward
    (m : SqueezeAxialPositionalEmbedding) (x : T3) : T3 :=
  x.add (m.interpTo x.N)

/-- Bilinear interpolation to an explicit target size (Hout, Wout) with
align_corners=False: F.interpolate(x, size=(Hout, Wout), mode='bilinear',
align_corners=False). -/
def T4.interpolateBilinear (x : T4) (Hout Wout : ℕ) : T4 :=
  { B := x.B, C := x.C, H := Hout, W := Wout,
    data := fun b c i j =>
      let si := interpSrc x.H Hout i
      let sj := interpSrc x.W Wout j
      let i0 : ℕ := (⌊si⌋).toNat
      let li : ℚ := si - (i0 : ℚ)
      let i1 : ℕ := if i0 < x.H - 1 then i0 + 1 else i0
      let j0 : ℕ := (⌊sj⌋).toNat
      let lj : ℚ := sj - (j0 : ℚ)
      let j1 : ℕ := if j0 < x.W - 1 then j0 + 1 else j0
      (1 - li) * ((1 - lj) * x.data b c i0 j0 + lj * x.data b c i0 j1) +
        li * ((1 - lj) * x.data b c i1 j0 + lj * x.data b c i1 j1) }

end SeaF


namespace SeaF

/-- Sea_Attention from the source: hyperparameters, the two construction
flags, and the learned state of every sub-module built in the
constructor.  `scale` stands for `key_dim ** -0.5` (irrational for
general key_dim, hence a parameter of the rational embedding) and
`expFn` for the exponential used inside the framework softmax; no claim
depends on their values. -/
structure Sea_Attention where
  dim : ℕ
  key_dim : ℕ
  num_heads : ℕ
  attnR : ℕ
  talking_locality : Bool
  stride_attention : Bool
  scale : ℚ
  expFn : ℚ → ℚ
  act : ActKind
  to_q_w : ConvWeights
  to_k_w : ConvWeights
  to_v_w : ConvWeights
  proj_w : ConvWeights
  proj_encode_row_w : ConvWeights
  proj_encode_column_w : ConvWeights
  pos_rowq : ℕ → ℕ → ℚ
  pos_rowk : ℕ → ℕ → ℚ
  pos_columnq : ℕ → ℕ → ℚ
  pos_columnk : ℕ → ℕ → ℚ
  dwconv_w : ConvWeights
  pwconv_w : ConvWeights
  v_local_w : ConvWeights
  stride_conv_w : ConvWeights
  th1_w : ℕ → ℕ → ℕ → ℕ → ℚ
  th1_b : ℕ → ℚ
  th2_w : ℕ → ℕ → ℕ → ℕ → ℚ
  th2_b : ℕ → ℚ
  th3_w : ℕ → ℕ → ℕ → ℕ → ℚ
  th3_b : ℕ → ℚ
  th4_w : ℕ → ℕ → ℕ → ℕ → ℚ
  th4_b : ℕ → ℚ

namespace Sea_Attention

/-- self.nh_kd = key_dim * num_heads. -/
def nh_kd (m : Sea_Attention) : ℕ := m.key_dim * m.num_heads

/-- self.d = int(attn_ratio * key_dim); the ratio is an integer in every
configuration of this source, so the truncation is exact. -/
def d (m : Sea_Attention) : ℕ := m.attnR * m.key_dim

/-- self.dh = int(attn_ratio * key_dim) * num_heads. -/
def dh (m : Sea_Attention) : ℕ := m.d * m.num_heads

/-- self.stride_conv: Conv2d(dim, dim, 3, 2, 1, groups=dim) then
BatchNorm2d(dim). -/
def stride_conv (m : Sea_Attention) : Conv2dBN :=
  mkConvBNPair m.dim m.dim 3 2 1 1 m.dim m.stride_conv_w

/-- self.to_q: Conv2d_BN(dim, nh_kd, 1). -/
def to_q (m : Sea_Attention) : Conv2dBN :=
  mkConv2dBN m.dim m.nh_kd 1 1 0 1 1 m.to_q_w .none

/-- self.to_k: Conv2d_BN(dim, nh_kd, 1). -/
def to_k (m : Sea_Attention) : Conv2dBN :=
  mkConv2dBN m.dim m.nh_kd 1 1 0 1 1 m.to_k_w .none

/-- self.to_v: Conv2d_BN(dim, dh, 1). -/
def to_v (m : Sea_Attention) : Conv2dBN :=
  mkConv2dBN m.dim m.dh 1 1 0 1 1 m.to_v_w .none

/-- self.proj: Sequential(activation(), Conv2d_BN(dh, dim)). -/
def proj (m : Sea_Attention) : ActConvBN :=
  { act := m.act, cbn := mkConv2dBN m.dh m.dim 1 1 0 1 1 m.proj_w .none }

/-- self.proj_encode_row: Sequential(activation(), Conv2d_BN(dh, dh)). -/
def proj_encode_row (m : Sea_Attention) : ActConvBN :=
  { act := m.act, cbn := mkConv2dBN m.dh m.dh 1 1 0 1 1 m.proj_encode_row_w .none }

/-- self.proj_encode_column: Sequential(activation(), Conv2d_BN(dh, dh)). -/
def proj_encode_column (m : Sea_Attention) : ActConvBN :=
  { act := m.act,
    cbn := mkConv2dBN m.dh m.dh 1 1 0 1 1 m.proj_encode_column_w .none }

/-- self.pos_emb_rowq: SqueezeAxialPositionalEmbedding(nh_kd, 16). -/
def pos_emb_rowq (m : Sea_Attention) : SqueezeAxialPositionalEmbedding :=
  { dim := m.nh_kd, shape := 16, pos_embed := m.pos_rowq }

/-- self.pos_emb_rowk: SqueezeAxialPositionalEmbedding(nh_kd, 16). -/
def pos_emb_rowk (m : Sea_Attention) : SqueezeAxialPositionalEmbedding :=
  { dim := m.nh_kd, shape := 16, pos_embed := m.pos_rowk }

/-- self.pos_emb_columnq: SqueezeAxialPositionalEmbedding(nh_kd, 16). -/
def pos_emb_columnq (m : Sea_Attention) : SqueezeAxialPositionalEmbedding :=
  { dim := m.nh_kd, shape := 16, pos_embed := m.pos_columnq }

/-- self.pos_emb_columnk: SqueezeAxialPositionalEmbedding(nh_kd, 16). -/
def pos_emb_columnk (m : Sea_Attention) : SqueezeAxialPositionalEmbedding :=
  { dim := m.nh_kd, shape := 16, pos_embed := m.pos_columnk }

/-- self.dwconv: Conv2d_BN(dh + 2*nh_kd, 2*nh_kd + dh, ks=3, stride=1,
pad=1, dilation=1, groups=2*nh_kd + dh) (grouped depthwise over the
concatenated q, k, v channels). -/
def dwconv (m : Sea_Attention) : Conv2dBN :=
  mkConv2dBN (m.dh + 2 * m.nh_kd) (2 * m.nh_kd + m.dh) 3 1 1 1
    (2 * m.nh_kd + m.dh) m.dwconv_w .none

/-- self.pwconv: Conv2d_BN(2*nh_kd + dh, dim, ks=1). -/
def pwconv (m : Sea_Attention) : Conv2dBN :=
  mkConv2dBN (2 * m.nh_kd + m.dh) m.dim 1 1 0 1 1 m.pwconv_w .none

/-- self.v_local: Conv2d(dh, dh, 3, stride=1, padding=1, groups=dh) then
BatchNorm2d(dh). -/
def v_local (m : Sea_Attention) : Conv2dBN :=
  mkConvBNPair m.dh m.dh 3 1 1 1 m.dh m.v_local_w

/-- self.talking_head1: Conv2d(num_heads, num_heads, 1, 1, 0). -/
def talking_head1 (m : Sea_Attention) : Conv2dParams :=
  mkConv1x1 m.num_heads m.num_heads m.th1_w m.th1_b

/-- self.talking_head2: Conv2d(num_heads, num_heads, 1, 1, 0). -/
def talking_head2 (m : Sea_Attention) : Conv2dParams :=
  mkConv1x1 m.num_heads m.num_heads m.th2_w m.th2_b

/-- self.talking_head3: Conv2d(num_heads, num_heads, 1, 1, 0). -/
def talking_head3 (m : Sea_Attention) : Conv2dParams :=
  mkConv1x1 m.num_heads m.num_heads m.th3_w m.th3_b

/-- self.talking_head4: Conv2d(num_heads, num_heads, 1, 1, 0). -/
def talking_head4 (m : Sea_Attention) : Conv2dParams :=
  mkConv1x1 m.num_heads m.num_heads m.th4_w m.th4_b

/-- Softmax along the last dimension, with the framework exponential kept
as the model parameter `expFn`. -/
def softmaxLast (m : Sea_Attention) (t : T4) : T4 :=
  { t with data := fun b c h w =>
      m.expFn (t.data b c h w) / ∑ j ∈ Finset.range t.W, m.expFn (t.data b c h j) }

/-- Sea_Attention.forward translated line by line from the source.  The
two branch-local tensors of the Python (`qkv` in the plain branch,
`v_local` in the talking-head branch) are bound unconditionally here; each
is consumed only by its own branch of the final conditional. -/
def forward (m : Sea_Attention) (x : T4) : T4 :=
  let H_ori := x.H
  let W_ori := x.W
  let x := if m.stride_attention then m.stride_conv.forward x else x
  let B := x.B
  let H := x.H
  let W := x.W
  let q := m.to_q.forward x
  let k := m.to_k.forward x
  let v := m.to_v.forward x
  let qkv := T4.cat3 q k v
  let qkv := (m.dwconv.forward qkv).map m.act.apply
  let qkv := m.pwconv.forward qkv
  let v_local := m.v_local.forward v
  let qrow0 := m.pos_emb_rowq.forward q.meanW
  let qrow := (qrow0.reshapeTo4 B m.num_heads (qrow0.C / m.num_heads) H).permute0132
  let krow0 := m.pos_emb_rowk.forward k.meanW
  let krow := krow0.reshapeTo4 B m.num_heads (krow0.C / m.num_heads) H
  let vrow := ((v.meanW).reshapeTo4 B m.num_heads (v.meanW.C / m.num_heads) H).permute0132
  let attn_row := (qrow.matmul krow).smul m.scale
  let attn_row :=
    if !m.talking_locality then m.softmaxLast attn_row
    else conv2d m.talking_head2 (m.softmaxLast (conv2d m.talking_head1 attn_row))
  let xx_row := attn_row.matmul vrow
  let xx_row := m.proj_encode_row.forward ((xx_row.permute0132).reshape4 B m.dh H 1)
  let qcolumn0 := m.pos_emb_columnq.forward q.meanH
  let qcolumn := (qcolumn0.reshapeTo4 B m.num_heads (qcolumn0.C / m.num_heads) W).permute0132
  let kcolumn0 := m.pos_emb_columnk.forward k.meanH
  let kcolumn := kcolumn0.reshapeTo4 B m.num_heads (kcolumn0.C / m.num_heads) W
  let vcolumn := ((v.meanH).reshapeTo4 B m.num_heads (v.meanH.C / m.num_heads) W).permute0132
  let attn_column := (qcolumn.matmul kcolumn).smul m.scale
  let attn_column :=
    if !m.talking_locality then m.softmaxLast attn_column
    else conv2d m.talking_head4 (m.softmaxLast (conv2d m.talking_head3 attn_column))
  let xx_column := attn_column.matmul vcolumn
  let xx_column := m.proj_encode_column.forward ((xx_column.permute0132).reshape4 B m.dh 1 W)
  let xx := xx_row.add xx_column
  let xx := v.add xx
  if !m.talking_locality then
    let xx := m.proj.forward xx
    let xx := (xx.map hsigmoidQ).mul qkv
    if m.stride_attention then xx.interpolateBilinear H_ori W_ori else xx
  else
    let xx := xx.add v_local
    let xx := if m.stride_attention then xx.interpolateBilinear H_ori W_ori else xx
    m.proj.forward xx

end Sea_Attention

/-- Block from the source (Hybrid Block): an attention sub-layer and a
feed-forward sub-layer, each behind a stochastic-depth residual.  The
Python picks `DropPath(drop_path)` when the probability is positive and
`nn.Identity()` otherwise; `drop_path` with probability 0 is itself the
identity, so both cases are the single function `drop_path` below. -/
structure Block where
  dim : ℕ
  num_heads : ℕ
  mlp_r : ℕ
  drop_path_prob : ℚ
  attn : Sea_Attention
  mlp : Mlp

/-- Block.forward from the source: x1 = x1 + drop_path(attn(x1)) then
x1 = x1 + drop_path(mlp(x1)).  The framework randomness is passed in
explicitly: `r1`, `r2` for the two stochastic-depth draws and `d1`, `d2`
for the dropout masks inside the Mlp. -/
def Block.forward (m : Block) (training : Bool) (r1 r2 : ℕ → ℚ)
    (d1 d2 : ℕ → ℕ → ℕ → ℕ → ℚ) (x1 : T4) : T4 :=
  let x1 := x1.add (drop_path (m.attn.forward x1) m.drop_path_prob training r1)
  let x1 := x1.add (drop_path (m.mlp.forward training d1 d2 x1) m.drop_path_prob training r2)
  x1

/-- nn.Linear layer: out = x Wt + b. -/
structure LinearLayer where
  inF : ℕ
  outF : ℕ
  w : ℕ → ℕ → ℚ
  b : ℕ → ℚ

def LinearLayer.forward (m : LinearLayer) (x : T2) : T2 :=
  { B := x.B, N := m.outF,
    data := fun i o => m.b o + ∑ j ∈ Finset.range m.inF, x.data i j * m.w o j }

/-- SeaFormer from the source.  The claims about the top level quantify
over arbitrary configurations, so the backbone stages (StackedMV2Block or
StackedMV3Block instances) and the transformer stages (BasicLayer
instances, i.e. stacks of Blocks at inference) enter as the lists of
their forward functions; the classifier head is kept concrete. -/
structure SeaFormer where
  num_classes : ℕ
  channels : List ℕ
  smb : List (T4 → T4)
  trans : List (T4 → T4)
  linear : LinearLayer

/-- SeaFormer construction, mirroring the tail of the source constructor:
`self.num_classes = num_classes` and
`self.linear = nn.Linear(channels[-1], 1000)` — the head width is the
literal 1000, not num_classes. -/
def SeaFormer.init (num_classes : ℕ) (channels : List ℕ)
    (smb trans : List (T4 → T4)) (lw : ℕ → ℕ → ℚ) (lb : ℕ → ℚ) : SeaFormer :=
  { num_classes := num_classes, channels := channels, smb := smb,
    trans := trans,
    linear := { inF := channels.getLastD 0, outF := 1000, w := lw, b := lb } }

/-- SeaFormer.forward from the source: for i in range(num_smb_stage) run
smb(i+1); when num_trans_stage + i >= num_smb_stage also run
trans(i + num_trans_stage - num_smb_stage + 1); finally global average
pool, flatten, and the linear head. -/
def SeaFormer.forward (m : SeaFormer) (x : T4) : T2 :=
  let num_smb_stage := m.smb.length
  let num_trans_stage := m.trans.length
  let x := (List.range num_smb_stage).foldl (fun x i =>
      let x := (m.smb.getD i id) x
      if num_smb_stage ≤ num_trans_stage + i then
        (m.trans.getD (i + num_trans_stage - num_smb_stage) id) x
      else x) x
  m.linear.forward x.avgpoolView

end SeaF

namespace SeaF

namespace Sea_Attention

/-- The tensor actually fed to the q/k/v projections: the input itself,
or (in stride mode) the input downsampled by the strided depthwise
convolution + batch norm. -/
def inputAfterStride (m : Sea_Attention) (x : T4) : T4 :=
  if m.stride_attention then m.stride_conv.forward x else x

/-- The projected query. -/
def qT (m : Sea_Attention) (x : T4) : T4 := m.to_q.forward (m.inputAfterStride x)

/-- The projected key. -/
def kT (m : Sea_Attention) (x : T4) : T4 := m.to_k.forward (m.inputAfterStride x)

/-- The projected value. -/
def vT (m : Sea_Attention) (x : T4) : T4 := m.to_v.forward (m.inputAfterStride x)

/-- The concatenated-detail signal of the plain branch (spec section 4.5):
concatenate q, k, v along channels, grouped depthwise convolution with
activation, then pointwise projection. -/
def detailSignal (m : Sea_Attention) (x : T4) : T4 :=
  m.pwconv.forward ((m.dwconv.forward (T4.cat3 (m.qT x) (m.kT x) (m.vT x))).map
    m.act.apply)

/-- The locally-convolved value branch of the talking-head mode. -/
def v_localT (m : Sea_Attention) (x : T4) : T4 := m.v_local.forward (m.vT x)

/-- The row-attention output: squeeze over width, positional embeddings,
scaled dot-product attention along the height axis (with the talking-head
mixers when enabled), then the row encoder projection, giving a
(B, dh, H, 1) tensor. -/
def rowOut (m : Sea_Attention) (x : T4) : T4 :=
  let x := m.inputAfterStride x
  let B := x.B
  let H := x.H
  let q := m.to_q.forward x
  let k := m.to_k.forward x
  let v := m.to_v.forward x
  let qrow0 := m.pos_emb_rowq.forward q.meanW
  let qrow := (qrow0.reshapeTo4 B m.num_heads (qrow0.C / m.num_heads) H).permute0132
  let krow0 := m.pos_emb_rowk.forward k.meanW
  let krow := krow0.reshapeTo4 B m.num_heads (krow0.C / m.num_heads) H
  let vrow := ((v.meanW).reshapeTo4 B m.num_heads (v.meanW.C / m.num_heads) H).permute0132
  let attn_row := (qrow.matmul krow).smul m.scale
  let attn_row :=
    if !m.talking_locality then m.softmaxLast attn_row
    else conv2d m.talking_head2 (m.softmaxLast (conv2d m.talking_head1 attn_row))
  let xx_row := attn_row.matmul vrow
  m.proj_encode_row.forward ((xx_row.permute0132).reshape4 B m.dh H 1)

/-- The column-attention output: squeeze over height, positional
embeddings, scaled dot-product attention along the width axis (with the
talking-head mixers when enabled), then the column encoder projection,
giving a (B, dh, 1, W) tensor. -/
def colOut (m : Sea_Attention) (x : T4) : T4 :=
  let x := m.inputAfterStride x
  let B := x.B
  let W := x.W
  let q := m.to_q.forward x
  let k := m.to_k.forward x
  let v := m.to_v.forward x
  let qcolumn0 := m.pos_emb_columnq.forward q.meanH
  let qcolumn := (qcolumn0.reshapeTo4 B m.num_heads (qcolumn0.C / m.num_heads) W).permute0132
  let kcolumn0 := m.pos_emb_columnk.forward k.meanH
  let kcolumn := kcolumn0.reshapeTo4 B m.num_heads (kcolumn0.C / m.num_heads) W
  let vcolumn := ((v.meanH).reshapeTo4 B m.num_heads (v.meanH.C / m.num_heads) W).permute0132
  let attn_column := (qcolumn.matmul kcolumn).smul m.scale
  let attn_column :=
    if !m.talking_locality then m.softmaxLast attn_column
    else conv2d m.talking_head4 (m.softmaxLast (conv2d m.talking_head3 attn_column))
  let xx_column := attn_column.matmul vcolumn
  m.proj_encode_column.forward ((xx_column.permute0132).reshape4 B m.dh 1 W)

/-- The combined axial attention with the value tensor added in:
v + (row output + column output), the tensor the source calls `xx` right
before the final branch. -/
def attnPlusV (m : Sea_Attention) (x : T4) : T4 :=
  (m.vT x).add ((m.rowOut x).add (m.colOut x))

/-- The final combination exactly as claim C1 words it: multiply the
hard-sigmoid gate (of the projected attention output) against the
concatenated-detail signal, and ADD the product to the attention
output. -/
def claimedPlainOut (m : Sea_Attention) (x : T4) : T4 :=
  (((m.proj.forward (m.attnPlusV x)).map hsigmoidQ).mul (m.detailSignal x)).add
    (m.proj.forward (m.attnPlusV x))

/-- The stride-mode pipeline exactly as claim C2 words it for the
non-talking-head branch: upsample placed after the output projection and
BEFORE the sigmoid-gated multiply. -/
def claimedStrideOut (m : Sea_Attention) (x : T4) : T4 :=
  (((m.proj.forward (m.attnPlusV x)).interpolateBilinear x.H x.W).map
    hsigmoidQ).mul (m.detailSignal x)

end Sea_Attention

end SeaF

namespace SeaF

/-- The spec-side ordering of the top-level stage loop, written from the
words of claim C8: run the backbone stages in order and, exactly after
each backbone stage whose index is among the last `trans.length` of the
`smb.length` stages, apply the corresponding transformer stage. -/
def SeaFormer.stagesSpecRun (m : SeaFormer) (x : T4) : T4 :=
  (List.range m.smb.length).foldl (fun y i =>
    let y := (m.smb.getD i id) y
    if m.smb.length - m.trans.length ≤ i then
      (m.trans.getD (i - (m.smb.length - m.trans.length)) id) y
    else y) x

/-- Conv weights: all-ones convolution weight, zero bias, identity
inference batch norm. -/
def cwOne : ConvWeights :=
  { w := fun _ _ _ _ => 1, b := fun _ => 0, bnw := fun _ => 1, bnb := fun _ => 0 }

/-- Conv weights: all-halves convolution weight, zero bias, identity
inference batch norm. -/
def cwHalf : ConvWeights :=
  { w := fun _ _ _ _ => 1 / 2, b := fun _ => 0, bnw := fun _ => 1, bnb := fun _ => 0 }

/-- Conv weights whose inference batch norm has scale 0 and shift 1: the
unit maps every input to the constant 1. -/
def cwGate : ConvWeights :=
  { w := fun _ _ _ _ => 1 / 2, b := fun _ => 0, bnw := fun _ => 0, bnb := fun _ => 1 }

/-- Smallest plain Sea_Attention configuration: one head, key_dim 1,
attn_ratio 1, no talking heads, no stride. -/
def seaEx1 : Sea_Attention :=
  { dim := 1, key_dim := 1, num_heads := 1, attnR := 1,
    talking_locality := false, stride_attention := false,
    scale := 1, expFn := fun _ => 1, act := .relu,
    to_q_w := cwOne, to_k_w := cwOne, to_v_w := cwOne,
    proj_w := cwOne, proj_encode_row_w := cwOne, proj_encode_column_w := cwOne,
    pos_rowq := fun _ _ => 0, pos_rowk := fun _ _ => 0,
    pos_columnq := fun _ _ => 0, pos_columnk := fun _ _ => 0,
    dwconv_w := cwOne, pwconv_w := cwOne,
    v_local_w := cwOne, stride_conv_w := cwOne,
    th1_w := fun _ _ _ _ => 1, th1_b := fun _ => 0,
    th2_w := fun _ _ _ _ => 1, th2_b := fun _ => 0,
    th3_w := fun _ _ _ _ => 1, th3_b := fun _ => 0,
    th4_w := fun _ _ _ _ => 1, th4_b := fun _ => 0 }

/-- Plain Sea_Attention instance whose output projection is the constant
1 (batch norm scale 0, shift 1). -/
def seaC1 : Sea_Attention :=
  { seaEx1 with proj_w := cwGate }

/-- Stride-mode Sea_Attention instance (constant output projection,
fractional q/k/v and detail weights). -/
def seaC2 : Sea_Attention :=
  { seaEx1 with
    stride_attention := true
    to_q_w := cwHalf
    to_k_w := cwHalf
    to_v_w := cwHalf
    proj_w := cwGate
    dwconv_w := cwHalf
    pwconv_w := cwHalf }

/-- All-ones 1x1x1x1 input tensor. -/
def xOne : T4 := { B := 1, C := 1, H := 1, W := 1, data := fun _ _ _ _ => 1 }

/-- Input of shape (1, 1, 3, 1) whose rows carry the values 0, 1, 2; its
height 3 is odd, exercising the ceil-based stride downsizing. -/
def xRamp : T4 := { B := 1, C := 1, H := 3, W := 1, data := fun _ _ i _ => (i : ℚ) }

/-- The tensor the plain stride branch upsamples: gate times detail at
the downsampled resolution, for the seaC2 / xRamp instance. -/
def c2inner : T4 :=
  ((seaC2.proj.forward (seaC2.attnPlusV xRamp)).map hsigmoidQ).mul
    (seaC2.detailSignal xRamp)

/-- InvertedResidual with stride 1 and equal channel counts: the
shortcut branch is active. -/
def invResAdd : InvertedResidual :=
  { inp := 1, oup := 1, ks := 3, stride := 1, expandR := 2,
    activations := .relu, pw_w := cwOne, dw_w := cwOne, pwl_w := cwOne }

/-- InvertedResidual with stride 2: no shortcut. -/
def invResNoAdd : InvertedResidual :=
  { invResAdd with stride := 2 }

/-- A small squeeze-excite module. -/
def seEx : SEModule :=
  { channel := 4, reduction := 4,
    w1 := fun _ _ _ _ => 1, b1 := fun _ => 0,
    w2 := fun _ _ _ _ => 1, b2 := fun _ => 0 }

/-- ResidualUnit with stride 1 and equal channel counts: shortcut
active. -/
def resUnitAdd : ResidualUnit :=
  { in_c := 1, mid_c := 1, out_c := 1, filter_size := 3, stride := 1,
    use_se := false, act := .relu, dilation := 1,
    expand_w := cwOne, bottleneck_w := cwOne, linear_w := cwOne, se := seEx }

/-- ResidualUnit with stride 2: no shortcut. -/
def resUnitNoAdd : ResidualUnit :=
  { resUnitAdd with stride := 2 }

/-- A positional-embedding module with stored length 16. -/
def sapeEx : SqueezeAxialPositionalEmbedding :=
  { dim := 1, shape := 16, pos_embed := fun _ n => (n : ℚ) }

/-- A (1, 1, 16) input for the positional-embedding witness. -/
def t3Ex : T3 := { B := 1, C := 1, N := 16, data := fun _ _ n => (n : ℚ) }

/-- A stage function for the top-level witness. -/
def stageInc : T4 → T4 := fun x => x.map (fun t => t + 1)

/-- A two-backbone-stage, one-transformer-stage SeaFormer instance. -/
def seaFormerEx : SeaFormer :=
  SeaFormer.init 7 [1, 2] [stageInc, stageInc] [stageInc]
    (fun _ _ => 1) (fun _ => 0)

end SeaF

namespace SeaF

theorem bIdx_of_lt {d i : ℕ} (h : i < d) : bIdx d i = i := by
  unfold bIdx
  split
  · omega
  · rfl

/-- Helper: Sea_Attention.forward restated through the named
decomposition of its data flow.  Definitional. -/
theorem Sea_Attention.forward_eq (m : Sea_Attention) (x : T4) :
    m.forward x =
      (let xx := m.attnPlusV x;
       if !m.talking_locality then
         (let xx := m.proj.forward xx;
          let xx := (xx.map hsigmoidQ).mul (m.detailSignal x);
          if m.stride_attention then xx.interpolateBilinear x.H x.W else xx)
       else
         (let xx := xx.add (m.v_localT x);
          let xx := if m.stride_attention then xx.interpolateBilinear x.H x.W else xx;
          m.proj.forward xx)) := rfl

/-- Helper: resampling a length-16 signal to length 16 with linear
interpolation (align_corners=False) is the identity. -/
theorem interpLinear_identity (e : ℕ → ℚ) (j : ℕ) : interpLinear 16 16 e j = e j := by
  unfold interpLinear interpSrc
  have hs : max 0 (((j : ℚ) + 1 / 2) * (((16 : ℕ) : ℚ) / ((16 : ℕ) : ℚ)) - 1 / 2) = (j : ℚ) := by
    push_cast
    rw [div_self (by norm_num : (16 : ℚ) ≠ 0)]
    rw [max_eq_right (by ring_nf; positivity)]
    ring
  rw [hs]
  simp

/-- Helper: reading output row 2 of a bilinear upsample from (2, 1) to
(3, 1) gives input row 1 (source coordinate 7/6, both neighbours clamp
to row 1). -/
theorem interp_3_1_at_2 (y : T4) (hH : y.H = 2) (hW : y.W = 1) :
    (y.interpolateBilinear 3 1).data 0 0 2 0 = y.data 0 0 1 0 := by
  unfold T4.interpolateBilinear interpSrc
  rw [hH, hW]
  have ht1 : (Int.toNat 1 : ℕ) = 1 := rfl
  have ht0 : (Int.toNat 0 : ℕ) = 0 := rfl
  norm_num [max_def, ht0, ht1]
  ring

/-- Helper: for a nonnegative rational, the floor of the eighth is the
integer floor division of the floor by eight. -/
theorem floor_div_eight (q : ℚ) (hq : 0 ≤ q) : ⌊q / 8⌋ = ⌊q⌋ / 8 := by
  have h8 : ((8 : ℕ) : ℚ) = (8 : ℚ) := by norm_num
  have h1 : ⌊q / 8⌋ = ((⌊q / 8⌋₊ : ℕ) : ℤ) := by
    rw [← Int.floor_toNat, Int.toNat_of_nonneg (Int.floor_nonneg.2 (by positivity))]
  have h2 : ⌊q⌋ = ((⌊q⌋₊ : ℕ) : ℤ) := by
    rw [← Int.floor_toNat, Int.toNat_of_nonneg (Int.floor_nonneg.2 hq)]
  rw [h1, h2, ← h8, Nat.floor_div_nat q 8]
  push_cast
  rfl

/-- Helper: the two rounders agree on every nonnegative width. -/
theorem make_divisible_eq_spec (v : ℚ) (hv : 0 ≤ v) :
    _make_divisible v 8 Option.none = divisibleRounderSpec v := by
  unfold _make_divisible divisibleRounderSpec pyTrunc
  have h0 : (0 : ℚ) ≤ v + ((8 : ℕ) : ℚ) / 2 := by
    have h : ((8 : ℕ) : ℚ) = 8 := by norm_num
    rw [h]
    linarith
  rw [if_pos h0]
  have hcast : ((8 : ℕ) : ℤ) = (8 : ℤ) := by norm_num
  simp only [hcast, Option.getD]
  have hflo : ⌊v + ((8 : ℕ) : ℚ) / 2⌋ / (8 : ℤ) = ⌊v / 8 + 1 / 2⌋ := by
    have h2 : v / 8 + 1 / 2 = (v + ((8 : ℕ) : ℚ) / 2) / 8 := by
      push_cast
      ring
    rw [h2, floor_div_eight _ h0]
  rw [hflo]
  have hm : ⌊v / 8 + 1 / 2⌋ * (8 : ℤ) = 8 * ⌊v / 8 + 1 / 2⌋ := by ring
  rw [hm]

/-- Helper: the rounder always produces a multiple of eight (with the
default minimum). -/
theorem make_divisible_dvd_eight (v : ℚ) : (8 : ℤ) ∣ _make_divisible v 8 Option.none := by
  unfold _make_divisible
  have hcast : ((8 : ℕ) : ℤ) = (8 : ℤ) := by norm_num
  simp only [hcast, Option.getD]
  have hbase : (8 : ℤ) ∣ (8 : ℤ) ⊔ pyTrunc (v + ((8 : ℕ) : ℚ) / 2) / (8 : ℤ) * (8 : ℤ) := by
    rcases max_cases (8 : ℤ) (pyTrunc (v + ((8 : ℕ) : ℚ) / 2) / (8 : ℤ) * (8 : ℤ)) with
      ⟨h, _⟩ | ⟨h, _⟩
    · rw [h]
    · rw [h]
      exact dvd_mul_left 8 _
  split
  · exact dvd_add hbase (by norm_num)
  · exact hbase

/-- Helper: fold congruence over an index range. -/
theorem foldl_range_congr {α : Type} (f g : α → ℕ → α) (n : ℕ)
    (h : ∀ i < n, ∀ a, f a i = g a i) (a : α) :
    (List.range n).foldl f a = (List.range n).foldl g a := by
  induction n generalizing a with
  | zero => rfl
  | succ n ih =>
    rw [List.range_succ, List.foldl_append, List.foldl_append]
    rw [ih (fun i hi a => h i (by omega) a)]
    simp [h n (by omega)]

/-- Helper: the output projection of seaC1 is constantly 1. -/
theorem seaC1_proj_const (y : T4) (b c i j : ℕ) :
    (seaC1.proj.forward y).data b c i j = 1 := by
  simp only [Sea_Attention.proj, ActConvBN.forward, Conv2dBN.forward, mkConv2dBN,
    batchNorm, T4.map, ActKind.apply, seaC1, seaEx1, cwGate]
  norm_num

/-- Helper: the output projection of seaC2 is constantly 1. -/
theorem seaC2_proj_const (y : T4) (b c i j : ℕ) :
    (seaC2.proj.forward y).data b c i j = 1 := by
  simp only [Sea_Attention.proj, ActConvBN.forward, Conv2dBN.forward, mkConv2dBN,
    batchNorm, T4.map, ActKind.apply, seaC2, seaEx1, cwGate]
  norm_num

set_option maxHeartbeats 3200000 in
/-- Helper: the concatenated-detail signal of seaC2 on xRamp at the
downsampled row 1. -/
theorem seaC2_detail_at_1 : (seaC2.detailSignal xRamp).data 0 0 1 0 = 3 / 2 := by
  simp only [Sea_Attention.detailSignal, Sea_Attention.qT, Sea_Attention.kT,
    Sea_Attention.vT, Sea_Attention.inputAfterStride, Sea_Attention.stride_conv,
    Sea_Attention.to_q, Sea_Attention.to_k, Sea_Attention.to_v, Sea_Attention.dwconv,
    Sea_Attention.pwconv, Sea_Attention.nh_kd, Sea_Attention.d, Sea_Attention.dh,
    Conv2dBN.forward, mkConv2dBN, mkConvBNPair, conv2d, convOut, batchNorm,
    T4.map, T4.cat3, T4.getPad, ActKind.apply, seaC2, seaEx1, cwOne, cwHalf, xRamp,
    Finset.sum_range_succ, Finset.sum_range_zero]
  have ht2 : (Int.toNat 2 : ℕ) = 2 := rfl
  have ht1 : (Int.toNat 1 : ℕ) = 1 := rfl
  have ht0 : (Int.toNat 0 : ℕ) = 0 := rfl
  norm_num [ht0, ht1, ht2, max_def]

set_option maxHeartbeats 3200000 in
/-- Helper: the concatenated-detail signal of seaC2 on xRamp, read at
the out-of-range broadcast row 2, is 0. -/
theorem seaC2_detail_at_2 : (seaC2.detailSignal xRamp).data 0 0 2 0 = 0 := by
  simp only [Sea_Attention.detailSignal, Sea_Attention.qT, Sea_Attention.kT,
    Sea_Attention.vT, Sea_Attention.inputAfterStride, Sea_Attention.stride_conv,
    Sea_Attention.to_q, Sea_Attention.to_k, Sea_Attention.to_v, Sea_Attention.dwconv,
    Sea_Attention.pwconv, Sea_Attention.nh_kd, Sea_Attention.d, Sea_Attention.dh,
    Conv2dBN.forward, mkConv2dBN, mkConvBNPair, conv2d, convOut, batchNorm,
    T4.map, T4.cat3, T4.getPad, ActKind.apply, seaC2, seaEx1, cwOne, cwHalf, xRamp,
    Finset.sum_range_succ, Finset.sum_range_zero]
  norm_num

end SeaF

namespace SeaF

/-- Claim C10: in plain Axial Squeeze Attention, in both the gated-detail
and talking-head modes, the full-resolution value tensor v is added (with
broadcasting) to the sum of the row-attention and column-attention
outputs — `attnPlusV` — before any final projection, hard-sigmoid gating,
or local-value addition. -/
theorem sea_v_added_before_final_branch (m : Sea_Attention) (x : T4) :
    m.forward x =
      (let xx := m.attnPlusV x;
       if !m.talking_locality then
         (let xx := m.proj.forward xx;
          let xx := (xx.map hsigmoidQ).mul (m.detailSignal x);
          if m.stride_attention then xx.interpolateBilinear x.H x.W else xx)
       else
         (let xx := xx.add (m.v_localT x);
          let xx := if m.stride_attention then xx.interpolateBilinear x.H x.W else xx;
          m.proj.forward xx)) := rfl

/-- Claim C1 (amended): in the plain (non-talking-head) variant, the
detail branch concatenates q, k, v, applies the grouped depthwise
convolution (with activation) and the pointwise projection, and the final
output is the hard-sigmoid gate of the projected attention output
MULTIPLIED against this concatenated-detail signal (then upsampled in
stride mode); the product is not added to the attention output. -/
theorem sea_plain_gated_detail_amended (m : Sea_Attention) (x : T4)
    (ht : m.talking_locality = false) :
    m.forward x =
      (let out := ((m.proj.forward (m.attnPlusV x)).map hsigmoidQ).mul
        (m.detailSignal x);
       if m.stride_attention then out.interpolateBilinear x.H x.W else out) := by
  rw [Sea_Attention.forward_eq, ht]
  rfl

/-- Claim C1 (witness): the amended theorem applied to the concrete
plain instance seaC1 on the all-ones input. -/
theorem sea_plain_gated_detail_amended_witness :
    seaC1.talking_locality = false ∧
    seaC1.forward xOne =
      (let out := ((seaC1.proj.forward (seaC1.attnPlusV xOne)).map hsigmoidQ).mul
        (seaC1.detailSignal xOne);
       if seaC1.stride_attention then out.interpolateBilinear xOne.H xOne.W else out) :=
  ⟨rfl, sea_plain_gated_detail_amended seaC1 xOne rfl⟩

/-- Claim C1 (counterexample): for the concrete plain instance seaC1 on
the all-ones 1x1x1x1 input, the source forward output differs from the
claimed combination in which the gate-times-detail product is
additionally ADDED to the attention output (`claimedPlainOut`): the code
returns gate times detail only. -/
theorem sea_plain_added_product_counterexample :
    (seaC1.forward xOne).data 0 0 0 0 ≠ (seaC1.claimedPlainOut xOne).data 0 0 0 0 := by
  have h1 : seaC1.forward xOne =
      ((seaC1.proj.forward (seaC1.attnPlusV xOne)).map hsigmoidQ).mul
        (seaC1.detailSignal xOne) := by
    rw [Sea_Attention.forward_eq]
    rfl
  have h2 : (seaC1.claimedPlainOut xOne).data 0 0 0 0 =
      (((seaC1.proj.forward (seaC1.attnPlusV xOne)).map hsigmoidQ).mul
        (seaC1.detailSignal xOne)).data 0 0 0 0 +
      (seaC1.proj.forward (seaC1.attnPlusV xOne)).data 0 0 0 0 := by
    simp only [Sea_Attention.claimedPlainOut, T4.add, bIdx]
    norm_num
  rw [h1, h2, seaC1_proj_const]
  intro h
  linarith

/-- Claim C2 (amended): with stride_attention=True the input is first
downsampled by the strided depthwise convolution (inputAfterStride feeds
every projection), and the corner-free bilinear upsample back to the
original (H, W) is placed BEFORE the output projection in the
talking-head branch but AFTER the sigmoid-gated multiply (as the final
operation) in the non-talking-head branch — not between the projection
and the multiply. -/
theorem sea_stride_order_amended (m : Sea_Attention) (x : T4)
    (hs : m.stride_attention = true) :
    m.forward x =
      (if m.talking_locality then
        m.proj.forward (((m.attnPlusV x).add (m.v_localT x)).interpolateBilinear x.H x.W)
      else
        (((m.proj.forward (m.attnPlusV x)).map hsigmoidQ).mul
          (m.detailSignal x)).interpolateBilinear x.H x.W) := by
  rw [Sea_Attention.forward_eq, hs]
  cases htl : m.talking_locality <;> rfl

/-- Claim C2 (witness): the amended theorem applied to the concrete
stride-mode instance seaC2 on the 3x1 ramp input. -/
theorem sea_stride_order_amended_witness :
    seaC2.stride_attention = true ∧
    seaC2.forward xRamp =
      (if seaC2.talking_locality then
        seaC2.proj.forward (((seaC2.attnPlusV xRamp).add
          (seaC2.v_localT xRamp)).interpolateBilinear xRamp.H xRamp.W)
      else
        (((seaC2.proj.forward (seaC2.attnPlusV xRamp)).map hsigmoidQ).mul
          (seaC2.detailSignal xRamp)).interpolateBilinear xRamp.H xRamp.W) :=
  ⟨rfl, sea_stride_order_amended seaC2 xRamp rfl⟩

/-- Claim C2 (counterexample): for the concrete stride-mode instance
seaC2 on the 3x1 ramp input, the source forward output differs at output
position (0,0,2,0) from the claimed ordering in which the upsample sits
after the output projection and before the sigmoid-gated multiply
(`claimedStrideOut`): in the code the upsample is the final operation,
after the multiply. -/
theorem sea_stride_upsample_before_multiply_counterexample :
    (seaC2.forward xRamp).data 0 0 2 0 ≠
      (seaC2.claimedStrideOut xRamp).data 0 0 2 0 := by
  have h1 : seaC2.forward xRamp = c2inner.interpolateBilinear 3 1 := by
    rw [Sea_Attention.forward_eq]
    rfl
  have h3 : c2inner.data 0 0 1 0 =
      hsigmoidQ ((seaC2.proj.forward (seaC2.attnPlusV xRamp)).data 0 0 1 0) *
        (seaC2.detailSignal xRamp).data 0 0 1 0 := rfl
  have h5 : (seaC2.claimedStrideOut xRamp).data 0 0 2 0 =
      hsigmoidQ (((seaC2.proj.forward (seaC2.attnPlusV xRamp)).interpolateBilinear
          3 1).data 0 0 2 0) *
        (seaC2.detailSignal xRamp).data 0 0 2 0 := rfl
  rw [h1, interp_3_1_at_2 c2inner rfl rfl, h3, h5, seaC2_proj_const,
    seaC2_detail_at_1, seaC2_detail_at_2, mul_zero]
  norm_num [hsigmoidQ, relu6Q, max_def, min_def]

/-- Claim C3: in stride-attention mode, for any input with H, W at least
1 (divisible by 2 or not), the downsampled intermediate resolution is
(ceil(H/2), ceil(W/2)) — written (H+1)/2, (W+1)/2 in natural division —
and the forward output resolution is exactly the recorded original
(H, W), in both the gated-detail and talking-head branches. -/
theorem sea_stride_shape_restored (m : Sea_Attention) (x : T4)
    (hs : m.stride_attention = true) (hH : 1 ≤ x.H) (hW : 1 ≤ x.W) :
    ((m.inputAfterStride x).H = (x.H + 1) / 2 ∧
      (m.inputAfterStride x).W = (x.W + 1) / 2) ∧
    ((m.forward x).H = x.H ∧ (m.forward x).W = x.W) := by
  constructor
  · unfold Sea_Attention.inputAfterStride
    rw [hs]
    constructor
    · show convOut x.H 3 2 1 1 = (x.H + 1) / 2
      unfold convOut
      omega
    · show convOut x.W 3 2 1 1 = (x.W + 1) / 2
      unfold convOut
      omega
  · rw [Sea_Attention.forward_eq, hs]
    cases htl : m.talking_locality
    · constructor <;> rfl
    · constructor
      · show convOut x.H 1 1 0 1 = x.H
        unfold convOut
        omega
      · show convOut x.W 1 1 0 1 = x.W
        unfold convOut
        omega

/-- Claim C3 (witness): the shape theorem applied to the stride-mode
instance seaC2 on the 3x1 ramp input of odd height. -/
theorem sea_stride_shape_restored_witness :
    (seaC2.stride_attention = true ∧ 1 ≤ xRamp.H ∧ 1 ≤ xRamp.W) ∧
    (((seaC2.inputAfterStride xRamp).H = (xRamp.H + 1) / 2 ∧
      (seaC2.inputAfterStride xRamp).W = (xRamp.W + 1) / 2) ∧
    ((seaC2.forward xRamp).H = xRamp.H ∧ (seaC2.forward xRamp).W = xRamp.W)) :=
  ⟨⟨rfl, by decide, by decide⟩,
    sea_stride_shape_restored seaC2 xRamp rfl (by decide) (by decide)⟩

end SeaF

namespace SeaF

/-- Claim C4: SqueezeAxialPositionalEmbedding returns the element-wise
sum of the input with the stored length-16 embedding resampled to
length N by 1-D linear interpolation without corner alignment, and when
N = 16 the resampling is the identity, so the output is input plus the
stored embedding exactly. -/
theorem squeeze_axial_pos_embed_resample (m : SqueezeAxialPositionalEmbedding)
    (x : T3) (b c n : ℕ) (hb : b < x.B) (hc : c < x.C) (hn : n < x.N)
    (hdim : x.C = m.dim) (hsh : m.shape = 16) :
    ((m.forward x).data b c n =
      x.data b c n + interpLinear 16 x.N (m.pos_embed c) n) ∧
    (x.N = 16 → (m.forward x).data b c n = x.data b c n + m.pos_embed c n) := by
  have hkey : (m.forward x).data b c n =
      x.data b c n + interpLinear m.shape x.N (m.pos_embed c) n := by
    simp only [SqueezeAxialPositionalEmbedding.forward,
      SqueezeAxialPositionalEmbedding.interpTo, T3.add]
    rw [bIdx_of_lt hb, bIdx_of_lt hc, bIdx_of_lt hn, bIdx_of_lt (hdim ▸ hc)]
  constructor
  · rw [hkey, hsh]
  · intro h16
    rw [hkey, hsh, h16, interpLinear_identity]

/-- Claim C4 (witness): the resampling theorem applied to a concrete
length-16 embedding and a (1,1,16) input at position 5. -/
theorem squeeze_axial_pos_embed_resample_witness :
    ((sapeEx.forward t3Ex).data 0 0 5 =
      t3Ex.data 0 0 5 + interpLinear 16 t3Ex.N (sapeEx.pos_embed 0) 5) ∧
    ((sapeEx.forward t3Ex).data 0 0 5 = t3Ex.data 0 0 5 + sapeEx.pos_embed 0 5) :=
  ⟨(squeeze_axial_pos_embed_resample sapeEx t3Ex 0 0 5 (by decide) (by decide)
      (by decide) rfl rfl).1,
   (squeeze_axial_pos_embed_resample sapeEx t3Ex 0 0 5 (by decide) (by decide)
      (by decide) rfl rfl).2 rfl⟩

/-- Claim C5: for every nonnegative width v, the divisor-8 rounder
equals the spec-side nearest-multiple-of-8 rounder (clamped below at the
default minimum 8, bumped by one step when the rounded value falls below
ninety percent of v), always returns a multiple of 8, and maps 13 to 16
and 7 to 8. -/
theorem make_divisible_rounder (v : ℚ) (hv : 0 ≤ v) :
    _make_divisible v 8 Option.none = divisibleRounderSpec v ∧
    (8 : ℤ) ∣ _make_divisible v 8 Option.none ∧
    _make_divisible 13 8 Option.none = 16 ∧
    _make_divisible 7 8 Option.none = 8 := by
  refine ⟨make_divisible_eq_spec v hv, make_divisible_dvd_eight v, ?_, ?_⟩
  · unfold _make_divisible pyTrunc
    norm_num
  · unfold _make_divisible pyTrunc
    norm_num

/-- Claim C5 (witness): the rounder theorem applied at v = 13. -/
theorem make_divisible_rounder_witness :
    (0 : ℚ) ≤ 13 ∧
    (_make_divisible 13 8 Option.none = divisibleRounderSpec 13 ∧
      (8 : ℤ) ∣ _make_divisible 13 8 Option.none ∧
      _make_divisible 13 8 Option.none = 16 ∧
      _make_divisible 7 8 Option.none = 8) :=
  ⟨by norm_num, make_divisible_rounder 13 (by norm_num)⟩

/-- Claim C6: for both residual families the shortcut add is applied
exactly when stride is 1 and the input channel count equals the output
channel count; with the shortcut the output is input plus the block
transform, otherwise the transform alone. -/
theorem residual_add_iff (mi : InvertedResidual) (mr : ResidualUnit) (x y : T4) :
    (mi.use_res_connect → mi.forward x = x.add (mi.conv x)) ∧
    (¬ mi.use_res_connect → mi.forward x = mi.conv x) ∧
    (mr.if_shortcut → mr.forward y = y.add (mr.body y)) ∧
    (¬ mr.if_shortcut → mr.forward y = mr.body y) := by
  refine ⟨fun h => ?_, fun h => ?_, fun h => ?_, fun h => ?_⟩ <;>
    simp [InvertedResidual.forward, ResidualUnit.forward, h]

/-- Claim C6 (witness): both branches of both families on concrete
units: stride 1 with equal channels adds the input, stride 2 does not. -/
theorem residual_add_iff_witness :
    invResAdd.forward xOne = xOne.add (invResAdd.conv xOne) ∧
    invResNoAdd.forward xOne = invResNoAdd.conv xOne ∧
    resUnitAdd.forward xOne = xOne.add (resUnitAdd.body xOne) ∧
    resUnitNoAdd.forward xOne = resUnitNoAdd.body xOne :=
  ⟨(residual_add_iff invResAdd resUnitAdd xOne xOne).1 (by decide),
   (residual_add_iff invResNoAdd resUnitAdd xOne xOne).2.1 (by decide),
   (residual_add_iff invResAdd resUnitAdd xOne xOne).2.2.1 (by decide),
   (residual_add_iff invResAdd resUnitNoAdd xOne xOne).2.2.2 (by decide)⟩

/-- Claim C7: a Hybrid Block computes x + StochasticDepth(Attention(x))
followed by x + StochasticDepth(FeedForward(x)); outside training mode
drop_path is the identity for every tensor and drop probability; and at
inference the feed-forward is exactly the 1x1 expand, depthwise 3x3,
activation, 1x1 project pipeline. -/
theorem block_forward_structure (m : Block) (training : Bool) (r1 r2 : ℕ → ℚ)
    (d1 d2 : ℕ → ℕ → ℕ → ℕ → ℚ) (x z : T4) (p : ℚ) (r : ℕ → ℚ) :
    (m.forward training r1 r2 d1 d2 x =
      (x.add (drop_path (m.attn.forward x) m.drop_path_prob training r1)).add
        (drop_path (m.mlp.forward training d1 d2
            (x.add (drop_path (m.attn.forward x) m.drop_path_prob training r1)))
          m.drop_path_prob training r2)) ∧
    (drop_path z p false r = z) ∧
    (m.mlp.forward false d1 d2 z =
      m.mlp.fc2.forward ((conv2d m.mlp.dwconv (m.mlp.fc1.forward z)).map
        m.mlp.act.apply)) := by
  refine ⟨rfl, by simp [drop_path], ?_⟩
  simp [Mlp.forward, dropoutQ]

/-- Claim C8: for every configuration with trans stages no more numerous
than backbone stages, the top-level forward equals: run the backbone
stages in order, apply the transformer stage i - (S - T) exactly after
each backbone stage of index i at least S - T, then global average
pooling and the single linear head. -/
theorem seaformer_stage_orchestration (m : SeaFormer)
    (hTS : m.trans.length ≤ m.smb.length) (x : T4) :
    m.forward x = m.linear.forward (m.stagesSpecRun x).avgpoolView := by
  unfold SeaFormer.forward SeaFormer.stagesSpecRun
  dsimp only
  have hfold : (List.range m.smb.length).foldl (fun y i =>
      let y := (m.smb.getD i id) y
      if m.smb.length ≤ m.trans.length + i then
        (m.trans.getD (i + m.trans.length - m.smb.length) id) y
      else y) x =
    (List.range m.smb.length).foldl (fun y i =>
      let y := (m.smb.getD i id) y
      if m.smb.length - m.trans.length ≤ i then
        (m.trans.getD (i - (m.smb.length - m.trans.length)) id) y
      else y) x := by
    apply foldl_range_congr
    intro i hi a
    by_cases hc : m.smb.length ≤ m.trans.length + i
    · rw [if_pos hc, if_pos (by omega)]
      have hidx : i + m.trans.length - m.smb.length =
          i - (m.smb.length - m.trans.length) := by omega
      rw [hidx]
    · rw [if_neg hc, if_neg (by omega)]
  rw [hfold]

/-- Claim C8 (witness): the orchestration theorem applied to a concrete
two-backbone-stage, one-transformer-stage network. -/
theorem seaformer_stage_orchestration_witness :
    seaFormerEx.trans.length ≤ seaFormerEx.smb.length ∧
    seaFormerEx.forward xOne =
      seaFormerEx.linear.forward (seaFormerEx.stagesSpecRun xOne).avgpoolView :=
  ⟨by decide, seaformer_stage_orchestration seaFormerEx (by decide) xOne⟩

/-- Claim C9: for every num_classes argument, the constructed classifier
head is a linear layer with exactly 1000 output features and the
network's output width is always 1000; num_classes is stored but never
sizes the head. -/
theorem seaformer_head_width_fixed_1000 (nc : ℕ) (channels : List ℕ)
    (smb trans : List (T4 → T4)) (lw : ℕ → ℕ → ℚ) (lb : ℕ → ℚ) (x : T4) :
    (SeaFormer.init nc channels smb trans lw lb).num_classes = nc ∧
    (SeaFormer.init nc channels smb trans lw lb).linear.outF = 1000 ∧
    ((SeaFormer.init nc channels smb trans lw lb).forward x).N = 1000 :=
  ⟨rfl, rfl, rfl⟩

end SeaF
